import Mathlib

/-!
Verification of the Mach-O executable header patcher in
PyInstaller/utils/osx.py, together with the Homebrew/Macports
environment-detection helpers of the same module.

The embedding mirrors the Python source:

* A load command is the tuple macholib hands back, abstracted to the
  fields the module reads: the command kind (LC_SEGMENT_64, LC_SYMTAB,
  LC_CODE_SIGNATURE, or anything else, kept with its raw code) plus the
  kind-specific fields that osx.py touches.
* Sizes and offsets are Int: Python integers are unbounded and the
  module computes a possibly-negative delta with plain subtraction.
* The asserts of fix_exe_for_code_signing become Except errors; every
  assert in the Python runs before the single executable.write call, so
  an error value means the file was not written to at all.
-/

/-- One segment_command_64 load command, restricted to the fields osx.py
reads or writes: segname, fileoff, filesize, vmsize. -/
structure SegmentCommand64 where
  segname : String
  fileoff : Int
  filesize : Int
  vmsize : Int
deriving DecidableEq, Repr

/-- One symtab_command load command, restricted to the fields osx.py
reads or writes: stroff and strsize. -/
structure SymtabCommand where
  stroff : Int
  strsize : Int
deriving DecidableEq, Repr

/-- A load command of the slice, tagged by the command kinds osx.py
filters on (cmd == LC_SEGMENT_64, LC_SYMTAB, LC_CODE_SIGNATURE); any
other command is kept along with its raw cmd code and is never touched
by the module. -/
inductive LoadCommand where
  | segment64 (seg : SegmentCommand64)
  | symtab (st : SymtabCommand)
  | codeSignature
  | other (cmd : Nat)
deriving DecidableEq, Repr

/-- One Mach-O header slice: its byte offset within the file
(header.offset, zero for a thin binary) and its load commands. -/
structure MachOHeader where
  offset : Int
  commands : List LoadCommand
deriving DecidableEq, Repr

/-- One fat_arch (or fat_arch64) entry of the fat header: byte offset
and byte size of one architecture slice. -/
structure FatArch where
  offset : Int
  size : Int
deriving DecidableEq, Repr

/-- The parsed executable, as macholib's MachO object exposes it to
osx.py: the list of per-architecture headers, whether the file is fat,
and, for a fat file, the fat_arch table that the second write pass
re-reads from the file. MachO.load_fat builds one header per fat_arch
entry, so a parsed fat file has as many fatArchs entries as headers. -/
structure MachO where
  headers : List MachOHeader
  fat : Bool
  fatArchs : List FatArch
deriving DecidableEq, Repr

/-- The failures of fix_exe_for_code_signing. The first four are the
four assert statements of the Python, in source order; indexError is
Python's IndexError on headers[-1] or archs[-1] of an empty list. -/
inductive FixError where
  | alreadySigned
  | missingSegment
  | missingSymtab
  | layoutMismatch
  | indexError
deriving DecidableEq, Repr

/-- The 16-byte zero-padded segment name b'__LINKEDIT\x00\x00\x00\x00\x00\x00'
that osx.py compares against. -/
def LINKEDIT_NAME : String := "__LINKEDIT\x00\x00\x00\x00\x00\x00"

/-- The filter cmd[0].cmd == LC_CODE_SIGNATURE. -/
def isCodeSignature : LoadCommand → Bool
  | .codeSignature => true
  | _ => false

/-- The filter cmd[0].cmd == LC_SEGMENT_64 and cmd[1].segname ==
__LINKEDIT_NAME, returning the segment command entry (cmd[1]). -/
def getLinkeditSeg : LoadCommand → Option SegmentCommand64
  | .segment64 seg => if seg.segname = LINKEDIT_NAME then some seg else none
  | _ => none

/-- The filter cmd[0].cmd == LC_SYMTAB, returning the symtab command
entry (cmd[1]). -/
def getSymtab : LoadCommand → Option SymtabCommand
  | .symtab st => some st
  | _ => none

/-- The mutation symtab_sec.strsize += delta. -/
def patchSymtab (delta : Int) (st : SymtabCommand) : SymtabCommand :=
  { st with strsize := st.strsize + delta }

/-- The mutation linkedit_seg.filesize += delta; vmsize is deliberately
left untouched (the commented-out linkedit_seg.vmsize += delta in the
source). -/
def patchSegment (delta : Int) (seg : SegmentCommand64) : SegmentCommand64 :=
  { seg with filesize := seg.filesize + delta }

/-- Effect of the in-place mutation on one load command of the last
slice. The Python mutates the unique __LINKEDIT segment entry and the
unique LC_SYMTAB entry through object references; since the asserts
guarantee uniqueness, rewriting the command list pointwise is the same
thing: the named segment gets filesize += delta, the symtab gets
strsize += delta, every other command is untouched. -/
def patchCommand (delta : Int) : LoadCommand → LoadCommand
  | .segment64 seg =>
      if seg.segname = LINKEDIT_NAME then .segment64 (patchSegment delta seg)
      else .segment64 seg
  | .symtab st => .symtab (patchSymtab delta st)
  | .codeSignature => .codeSignature
  | .other cmd => .other cmd

/-- fix_exe_for_code_signing from PyInstaller/utils/osx.py.

Inputs: file_size is os.path.getsize(filename); executable is the
MachO(filename) parse of the current file content. The result is the
file content after the call: Except.ok gives the rewritten file, and
any Except.error is raised by an assert (or list index) that occurs in
the Python strictly before the executable.write(fp) call, i.e. with
zero bytes written to the file.

Step by step, following the source:
  header = executable.headers[-1];
  assert no LC_CODE_SIGNATURE command;
  assert exactly one LC_SEGMENT_64 named __LINKEDIT;
  assert exactly one LC_SYMTAB;
  assert linkedit.fileoff + linkedit.filesize == symtab.stroff + symtab.strsize;
  delta = file_size - (header.offset + linkedit.fileoff + linkedit.filesize)
    with no check on the sign of delta;
  symtab.strsize += delta; linkedit.filesize += delta;
  executable.write(fp)  (re-serializes every header; only the last changed);
  if fat: re-read the fat_arch table from the file and set
    last.size = file_size - last.offset, leaving all other entries as read. -/
def fix_exe_for_code_signing (file_size : Int) (executable : MachO) :
    Except FixError MachO :=
  match executable.headers.getLast? with
  | none => Except.error FixError.indexError
  | some header =>
    if (header.commands.filter isCodeSignature).length = 0 then
      match header.commands.filterMap getLinkeditSeg with
      | [linkedit_seg] =>
        match header.commands.filterMap getSymtab with
        | [symtab_sec] =>
          if linkedit_seg.fileoff + linkedit_seg.filesize =
              symtab_sec.stroff + symtab_sec.strsize then
            let old_file_size :=
              header.offset + linkedit_seg.fileoff + linkedit_seg.filesize
            let delta := file_size - old_file_size
            let newHeader : MachOHeader :=
              { header with commands := header.commands.map (patchCommand delta) }
            let newHeaders := executable.headers.dropLast ++ [newHeader]
            if executable.fat then
              match executable.fatArchs.getLast? with
              | none => Except.error FixError.indexError
              | some arch =>
                Except.ok { executable with
                  headers := newHeaders,
                  fatArchs := executable.fatArchs.dropLast ++
                    [{ arch with size := file_size - arch.offset }] }
            else
              Except.ok { executable with headers := newHeaders }
          else Except.error FixError.layoutMismatch
        | _ => Except.error FixError.missingSymtab
      | _ => Except.error FixError.missingSegment
    else Except.error FixError.alreadySigned

/-- Python errors raised by the toolchain-discovery helpers: TypeError
is what os.path.dirname(None) raises. -/
inductive PyError where
  | typeError
deriving DecidableEq, Repr

/-- posixpath.dirname on a string: everything up to the last slash,
with trailing slashes stripped unless the head is entirely slashes. -/
def posix_dirname (p : String) : String :=
  let l := p.data
  let i := l.length - (l.reverse.takeWhile (fun c => c ≠ '/')).length
  let head := l.take i
  if head ≠ [] ∧ head.any (fun c => c ≠ '/') then
    String.mk ((head.reverse.dropWhile (fun c => c = '/')).reverse)
  else String.mk head

/-- os.path.dirname as osx.py applies it to the result of shutil.which:
shutil.which returns None when the command is not on PATH, and
os.path.dirname(None) raises TypeError; on a string it is the POSIX
dirname. -/
def os_path_dirname : Option String → Except PyError String
  | none => Except.error PyError.typeError
  | some p => Except.ok (posix_dirname p)

/-- get_homebrew_prefix from osx.py. The parameter is the result of
shutil.which('brew'); the body is
os.path.dirname(os.path.dirname(prefix)). -/
def get_homebrew_prefix (which_brew : Option String) : Except PyError String := do
  let p1 ← os_path_dirname which_brew
  let p2 ← os_path_dirname (some p1)
  return p2

/-- get_macports_prefix from osx.py. The parameter is the result of
shutil.which('port'). -/
def get_macports_prefix (which_port : Option String) : Except PyError String := do
  let p1 ← os_path_dirname which_port
  let p2 ← os_path_dirname (some p1)
  return p2

/-- is_homebrew_env from osx.py: env_prefix = get_homebrew_prefix();
return True iff env_prefix is truthy (non-empty) and the interpreter's
base prefix starts with it. An exception from get_homebrew_prefix
propagates. -/
def is_homebrew_env (which_brew : Option String) ( base_prefix : String) :
    Except PyError Bool := do
  let env_prefix ← get_homebrew_prefix which_brew
  if env_prefix ≠ "" ∧ String.startsWith base_prefix env_prefix then
    return true
  else
    return false

/-- is_macports_env from osx.py, same shape as is_homebrew_env. -/
def is_macports_env (which_port : Option String) ( base_prefix : String) :
    Except PyError Bool := do
  let env_prefix ← get_macports_prefix which_port
  if env_prefix ≠ "" ∧ String.startsWith base_prefix env_prefix then
    return true
  else
    return false

/-!
Concrete instances used by witnesses and counterexamples. exThin is
the thin 64-bit scenario of the spec: declared size 100000, segment
filesize 5000, string table of size 400 at the tail of the segment.
exFat is the two-slice fat scenario: slice 1 at offset 0 size 50000,
slice 2 at offset 50000 size 40000, 5 bytes appended (file size 90005).
-/

def segEx : SegmentCommand64 :=
  { segname := LINKEDIT_NAME, fileoff := 95000, filesize := 5000, vmsize := 8192 }

def stEx : SymtabCommand := { stroff := 99600, strsize := 400 }

def hdrEx : MachOHeader :=
  { offset := 0, commands := [.other 5, .segment64 segEx, .symtab stEx] }

def exThin : MachO := { headers := [hdrEx], fat := false, fatArchs := [] }

/-- exThin after fix_exe_for_code_signing with a file size of 99950,
i.e. a file 50 bytes SHORTER than declared: the negative delta -50 is
silently applied (strsize 400 -> 350, filesize 5000 -> 4950). -/
def hdrExTrunc : MachOHeader :=
  { offset := 0,
    commands := [.other 5, .segment64 (patchSegment (-50) segEx),
      .symtab (patchSymtab (-50) stEx)] }

/-- exThin after fix_exe_for_code_signing with a file size of 100020
(20 appended bytes, delta 20). -/
def hdrExPatched : MachOHeader :=
  { offset := 0,
    commands := [.other 5, .segment64 (patchSegment 20 segEx),
      .symtab (patchSymtab 20 stEx)] }

def seg2Ex : SegmentCommand64 :=
  { segname := LINKEDIT_NAME, fileoff := 35000, filesize := 5000, vmsize := 16384 }

def st2Ex : SymtabCommand := { stroff := 39900, strsize := 100 }

def hdr1Ex : MachOHeader :=
  { offset := 0, commands := [.other 25, .segment64 seg2Ex, .symtab st2Ex] }

def hdr2Ex : MachOHeader :=
  { offset := 50000, commands := [.segment64 seg2Ex, .symtab st2Ex] }

def exFat : MachO :=
  { headers := [hdr1Ex, hdr2Ex], fat := true,
    fatArchs := [{ offset := 0, size := 50000 }, { offset := 50000, size := 40000 }] }

/-- exFat after fix_exe_for_code_signing with file size 90005 (5 bytes
appended past the declared end 90000 of the last slice). -/
def exFatOut : MachO :=
  { headers := [hdr1Ex,
      { offset := 50000,
        commands := [.segment64 (patchSegment 5 seg2Ex), .symtab (patchSymtab 5 st2Ex)] }],
    fat := true,
    fatArchs := [{ offset := 0, size := 50000 }, { offset := 50000, size := 40005 }] }

/-- A slice carrying an LC_CODE_SIGNATURE command. -/
def hdrSigned : MachOHeader :=
  { offset := 0, commands := [.codeSignature, .segment64 segEx, .symtab stEx] }

def exSigned : MachO := { headers := [hdrSigned], fat := false, fatArchs := [] }

/-- A slice with TWO segment-64 commands named __LINKEDIT. -/
def hdrTwoLinkedit : MachOHeader :=
  { offset := 0, commands := [.segment64 segEx, .segment64 segEx, .symtab stEx] }

def exTwoLinkedit : MachO := { headers := [hdrTwoLinkedit], fat := false, fatArchs := [] }

/-- A slice with no __LINKEDIT segment AND an LC_CODE_SIGNATURE command. -/
def hdrNoLinkedit : MachOHeader :=
  { offset := 0, commands := [.codeSignature, .symtab stEx] }

def exNoLinkedit : MachO := { headers := [hdrNoLinkedit], fat := false, fatArchs := [] }

/-- A symtab whose string table is NOT at the tail of the __LINKEDIT
segment described by segEx: 99600 + 500 = 100100 while segEx ends at
100000. -/
def stBad : SymtabCommand := { stroff := 99600, strsize := 500 }

/-- A slice with the layout mismatch of stBad AND an LC_CODE_SIGNATURE
command. -/
def hdrMismatchSigned : MachOHeader :=
  { offset := 0, commands := [.codeSignature, .segment64 segEx, .symtab stBad] }

def exMismatchSigned : MachO :=
  { headers := [hdrMismatchSigned], fat := false, fatArchs := [] }

/-- An unsigned slice with the layout mismatch of stBad. -/
def hdrMismatch : MachOHeader :=
  { offset := 0, commands := [.segment64 segEx, .symtab stBad] }

def exMismatch : MachO := { headers := [hdrMismatch], fat := false, fatArchs := [] }

/-!
Helper lemmas about the patch map and an inversion principle for
successful runs of fix_exe_for_code_signing.
-/

theorem isCodeSignature_patchCommand (delta : Int) (c : LoadCommand) :
    isCodeSignature (patchCommand delta c) = isCodeSignature c := by
  cases c with
  | segment64 seg =>
    simp only [patchCommand]
    split <;> rfl
  | symtab st => rfl
  | codeSignature => rfl
  | other n => rfl

theorem filterMap_linkedit_map_patch (delta : Int) (cmds : List LoadCommand) :
    (cmds.map (patchCommand delta)).filterMap getLinkeditSeg =
      (cmds.filterMap getLinkeditSeg).map (patchSegment delta) := by
  induction cmds with
  | nil => rfl
  | cons c t ih =>
    cases c with
    | segment64 seg =>
      by_cases h : seg.segname = LINKEDIT_NAME
      · simp [patchCommand, getLinkeditSeg, h, patchSegment, ih]
      · simp [patchCommand, getLinkeditSeg, h, ih]
    | symtab st => simp [patchCommand, getLinkeditSeg, ih]
    | codeSignature => simp [patchCommand, getLinkeditSeg, ih]
    | other n => simp [patchCommand, getLinkeditSeg, ih]

theorem filterMap_symtab_map_patch (delta : Int) (cmds : List LoadCommand) :
    (cmds.map (patchCommand delta)).filterMap getSymtab =
      (cmds.filterMap getSymtab).map (patchSymtab delta) := by
  induction cmds with
  | nil => rfl
  | cons c t ih =>
    cases c with
    | segment64 seg =>
      by_cases h : seg.segname = LINKEDIT_NAME
      · simp [patchCommand, getSymtab, h, ih]
      · simp [patchCommand, getSymtab, h, ih]
    | symtab st => simp [patchCommand, getSymtab, ih]
    | codeSignature => simp [patchCommand, getSymtab, ih]
    | other n => simp [patchCommand, getSymtab, ih]

theorem filter_sig_map_patch (delta : Int) (cmds : List LoadCommand) :
    (cmds.map (patchCommand delta)).filter isCodeSignature =
      (cmds.filter isCodeSignature).map (patchCommand delta) := by
  induction cmds with
  | nil => rfl
  | cons c t ih =>
    simp only [List.map_cons, List.filter_cons, isCodeSignature_patchCommand]
    split <;> simp [ih]

/-- Inversion for a successful run: the four validator checks held on
the last slice, and the output is exactly the patched model: the last
slice's commands rewritten by patchCommand with
delta = file_size - declared size, all other slices untouched, and for
a fat file (only) the last fat_arch entry's size recomputed. -/
theorem fix_ok_elim {file_size : Int} {ex out : MachO}
    (h : fix_exe_for_code_signing file_size ex = Except.ok out) :
    ∃ header linkedit_seg symtab_sec,
      ex.headers.getLast? = some header ∧
      header.commands.filter isCodeSignature = [] ∧
      header.commands.filterMap getLinkeditSeg = [linkedit_seg] ∧
      header.commands.filterMap getSymtab = [symtab_sec] ∧
      linkedit_seg.fileoff + linkedit_seg.filesize =
        symtab_sec.stroff + symtab_sec.strsize ∧
      out.headers = ex.headers.dropLast ++
        [{ header with commands := header.commands.map (patchCommand
            (file_size - (header.offset + linkedit_seg.fileoff + linkedit_seg.filesize))) }] ∧
      out.fat = ex.fat ∧
      ((ex.fat = false ∧ out.fatArchs = ex.fatArchs) ∨
        (ex.fat = true ∧ ∃ arch, ex.fatArchs.getLast? = some arch ∧
          out.fatArchs = ex.fatArchs.dropLast ++
            [{ arch with size := file_size - arch.offset }])) := by
  unfold fix_exe_for_code_signing at h
  split at h
  · exact absurd h (by simp)
  next header heq =>
    split at h
    next hsig =>
      split at h
      next linkedit_seg hseg =>
        split at h
        next symtab_sec hst =>
          split at h
          next hlay =>
            split at h
            next hfat =>
              split at h
              · exact absurd h (by simp)
              next arch harch =>
                cases h
                exact ⟨header, linkedit_seg, symtab_sec, heq,
                  List.length_eq_zero.mp hsig, hseg, hst, hlay, rfl, rfl,
                  Or.inr ⟨hfat, arch, harch, rfl⟩⟩
            next hfat =>
              cases h
              exact ⟨header, linkedit_seg, symtab_sec, heq,
                List.length_eq_zero.mp hsig, hseg, hst, hlay, rfl, rfl,
                Or.inl ⟨by simpa using hfat, rfl⟩⟩
          next hlay => exact absurd h (by simp)
        next hst => exact absurd h (by simp)
      next hseg => exact absurd h (by simp)
    next hsig => exact absurd h (by simp)

/-- Forward evaluation on a thin file whose last slice passes the four
validator checks. -/
theorem fix_ok_thin (file_size : Int) (ex : MachO) (header : MachOHeader)
    (seg : SegmentCommand64) (st : SymtabCommand)
    (heq : ex.headers.getLast? = some header)
    (hfat : ex.fat = false)
    (hsig : header.commands.filter isCodeSignature = [])
    (hseg : header.commands.filterMap getLinkeditSeg = [seg])
    (hst : header.commands.filterMap getSymtab = [st])
    (hlay : seg.fileoff + seg.filesize = st.stroff + st.strsize) :
    fix_exe_for_code_signing file_size ex =
      Except.ok { ex with headers := ex.headers.dropLast ++
        [{ header with commands := header.commands.map (patchCommand
            (file_size - (header.offset + seg.fileoff + seg.filesize))) }] } := by
  unfold fix_exe_for_code_signing
  rw [heq]
  simp only [hsig, hseg, hst, hfat, List.length_nil, if_pos rfl, if_pos hlay]
  simp

/-- Forward evaluation on a fat file whose last slice passes the four
validator checks. -/
theorem fix_ok_fat (file_size : Int) (ex : MachO) (header : MachOHeader)
    (seg : SegmentCommand64) (st : SymtabCommand) (arch : FatArch)
    (heq : ex.headers.getLast? = some header)
    (hfat : ex.fat = true)
    (harch : ex.fatArchs.getLast? = some arch)
    (hsig : header.commands.filter isCodeSignature = [])
    (hseg : header.commands.filterMap getLinkeditSeg = [seg])
    (hst : header.commands.filterMap getSymtab = [st])
    (hlay : seg.fileoff + seg.filesize = st.stroff + st.strsize) :
    fix_exe_for_code_signing file_size ex =
      Except.ok { ex with
        headers := ex.headers.dropLast ++
          [{ header with commands := header.commands.map (patchCommand
              (file_size - (header.offset + seg.fileoff + seg.filesize))) }],
        fatArchs := ex.fatArchs.dropLast ++
          [{ arch with size := file_size - arch.offset }] } := by
  unfold fix_exe_for_code_signing
  rw [heq]
  simp only [hsig, hseg, hst, hfat, harch, List.length_nil, if_pos rfl, if_pos hlay]
  simp

theorem patchCommand_eq_self (delta : Int) (c : LoadCommand)
    (h1 : getLinkeditSeg c = none) (h2 : getSymtab c = none) :
    patchCommand delta c = c := by
  cases c with
  | segment64 seg =>
    by_cases h : seg.segname = LINKEDIT_NAME
    · rw [getLinkeditSeg, if_pos h] at h1; exact absurd h1 (by simp)
    · simp [patchCommand, h]
  | symtab st => simp [getSymtab] at h2
  | codeSignature => rfl
  | other n => rfl

theorem patchCommand_zero (c : LoadCommand) : patchCommand 0 c = c := by
  cases c with
  | segment64 seg => simp [patchCommand, patchSegment]
  | symtab st => simp [patchCommand, patchSymtab]
  | codeSignature => rfl
  | other n => rfl

theorem map_patchCommand_zero (l : List LoadCommand) : l.map (patchCommand 0) = l := by
  have h : patchCommand (0 : Int) = id := funext patchCommand_zero
  rw [h, List.map_id]

/-- Sanity: the embedding evaluates; the spec's thin scenario numbers
come out as 420 / 5020. -/
theorem sanity_thin_eval : fix_exe_for_code_signing 100020 exThin =
    Except.ok { headers := [hdrExPatched], fat := false, fatArchs := [] } ∧
    (patchSymtab 20 stEx).strsize = 420 ∧ (patchSegment 20 segEx).filesize = 5020 :=
  ⟨rfl, rfl, rfl⟩

/-- Sanity: the fat scenario evaluates to exFatOut. -/
theorem sanity_fat_eval : fix_exe_for_code_signing 90005 exFat = Except.ok exFatOut :=
  rfl

/-- Sanity: the dirname chain of get_homebrew_prefix follows the
comment in osx.py: /usr/local/bin/brew becomes /usr/local. -/
theorem sanity_homebrew_conversion :
    get_homebrew_prefix (some "/usr/local/bin/brew") = Except.ok "/usr/local" :=
  rfl

/-!
The claims.
-/

/-- C1: the spec requires a negative delta (actual file size smaller
than declared) to be rejected as a precondition violation with zero
bytes written; the code has no such check and silently applies the
negative delta. At the failing input exThin (declared size 100000) with
actual size 99950, the run succeeds and shrinks strsize to 350 and
filesize to 4950. -/
theorem fix_applies_negative_delta :
    hdrEx.offset + segEx.fileoff + segEx.filesize = 100000 ∧
    (99950 : Int) < 100000 ∧
    fix_exe_for_code_signing 99950 exThin =
      Except.ok { headers := [hdrExTrunc], fat := false, fatArchs := [] } ∧
    (patchSymtab (-50) stEx).strsize = stEx.strsize - 50 ∧
    (patchSegment (-50) segEx).filesize = segEx.filesize - 50 :=
  ⟨by decide, by decide, rfl, by decide, by decide⟩

/-- C2: on a thin (single-slice) binary that passes all validator
checks and whose declared file size is below the actual file size, the
run succeeds; the new symtab strsize is the old one plus delta, the new
__LINKEDIT filesize is the old one plus delta, and the recomputed
declared file size (header.offset + fileoff + filesize) equals the
actual file size, where delta = actual - old declared size. -/
theorem fix_thin_growth (file_size delta : Int) (ex : MachO) (header : MachOHeader)
    (seg : SegmentCommand64) (st : SymtabCommand)
    (hheaders : ex.headers = [header])
    (hfat : ex.fat = false)
    (hsig : header.commands.filter isCodeSignature = [])
    (hseg : header.commands.filterMap getLinkeditSeg = [seg])
    (hst : header.commands.filterMap getSymtab = [st])
    (hlay : seg.fileoff + seg.filesize = st.stroff + st.strsize)
    (hlt : header.offset + seg.fileoff + seg.filesize < file_size)
    (hdelta : delta = file_size - (header.offset + seg.fileoff + seg.filesize)) :
    fix_exe_for_code_signing file_size ex =
      Except.ok { ex with headers :=
        [{ header with commands := header.commands.map (patchCommand delta) }] } ∧
    (header.commands.map (patchCommand delta)).filterMap getSymtab =
      [patchSymtab delta st] ∧
    (patchSymtab delta st).strsize = st.strsize + delta ∧
    (header.commands.map (patchCommand delta)).filterMap getLinkeditSeg =
      [patchSegment delta seg] ∧
    (patchSegment delta seg).filesize = seg.filesize + delta ∧
    header.offset + (patchSegment delta seg).fileoff +
      (patchSegment delta seg).filesize = file_size := by
  have heq : ex.headers.getLast? = some header := by rw [hheaders]; rfl
  refine ⟨?_, ?_, ?_, ?_, ?_, ?_⟩
  · rw [fix_ok_thin file_size ex header seg st heq hfat hsig hseg hst hlay,
      hheaders, hdelta]
    simp
  · rw [filterMap_symtab_map_patch, hst]; rfl
  · simp [patchSymtab]
  · rw [filterMap_linkedit_map_patch, hseg]; rfl
  · simp [patchSegment]
  · simp only [patchSegment]
    omega

/-- Witness for C2, on the spec's concrete thin scenario. -/
theorem fix_thin_growth_witness :
    fix_exe_for_code_signing 100020 exThin =
      Except.ok { exThin with headers :=
        [{ hdrEx with commands := hdrEx.commands.map (patchCommand 20) }] } ∧
    (hdrEx.commands.map (patchCommand 20)).filterMap getSymtab =
      [patchSymtab 20 stEx] ∧
    (patchSymtab 20 stEx).strsize = stEx.strsize + 20 ∧
    (hdrEx.commands.map (patchCommand 20)).filterMap getLinkeditSeg =
      [patchSegment 20 segEx] ∧
    (patchSegment 20 segEx).filesize = segEx.filesize + 20 ∧
    hdrEx.offset + (patchSegment 20 segEx).fileoff +
      (patchSegment 20 segEx).filesize = 100020 :=
  fix_thin_growth 100020 20 exThin hdrEx segEx stEx rfl rfl (by decide) (by decide)
    (by decide) (by decide) (by decide) (by decide)

/-- C3: on a fat binary for which the run succeeds, the last fat_arch
entry's size becomes file_size - its offset, its offset is unchanged,
and every other fat_arch entry is byte-identical to its old value. -/
theorem fix_fat_last_arch_update (file_size : Int) (ex out : MachO)
    (hfat : ex.fat = true)
    (hok : fix_exe_for_code_signing file_size ex = Except.ok out) :
    ∃ arch, ex.fatArchs.getLast? = some arch ∧
      out.fatArchs = ex.fatArchs.dropLast ++
        [{ arch with size := file_size - arch.offset }] ∧
      out.fatArchs.dropLast = ex.fatArchs.dropLast ∧
      out.fatArchs.getLast? = some { arch with size := file_size - arch.offset } ∧
      ({ arch with size := file_size - arch.offset } : FatArch).offset = arch.offset ∧
      ({ arch with size := file_size - arch.offset } : FatArch).size =
        file_size - arch.offset := by
  obtain ⟨header, seg, st, heq, hsig, hseg, hst, hlay, hout, hfatEq, hcase⟩ :=
    fix_ok_elim hok
  rcases hcase with ⟨hf, _⟩ | ⟨_, arch, harch, hfa⟩
  · rw [hfat] at hf; exact absurd hf (by simp)
  · refine ⟨arch, harch, hfa, ?_, ?_, rfl, rfl⟩
    · rw [hfa]; exact List.dropLast_concat
    · rw [hfa]; exact List.getLast?_concat _

/-- Witness for C3, on the spec's concrete fat scenario: the second
slice's entry goes from size 40000 to 40005, the first is untouched. -/
theorem fix_fat_last_arch_update_witness :
    exFat.fatArchs.getLast? = some { offset := 50000, size := 40000 } ∧
    exFatOut.fatArchs = exFat.fatArchs.dropLast ++
      [{ offset := 50000, size := 40005 }] := by
  obtain ⟨arch, h1, h2, h3, h4, h5, h6⟩ :=
    fix_fat_last_arch_update 90005 exFat exFatOut rfl rfl
  rw [show exFat.fatArchs.getLast? =
    some ({ offset := 50000, size := 40000 } : FatArch) from rfl] at h1
  cases h1
  exact ⟨rfl, h2⟩

/-- C4: if the last slice holds any LC_CODE_SIGNATURE load command, the
run fails with the already-signed error. The assert raising it sits
before the write call in the source, so no byte of the file changes. -/
theorem fix_rejects_signed_slice (file_size : Int) (ex : MachO) (header : MachOHeader)
    (heq : ex.headers.getLast? = some header)
    (hsig : ∃ c ∈ header.commands, isCodeSignature c = true) :
    fix_exe_for_code_signing file_size ex = Except.error FixError.alreadySigned := by
  obtain ⟨c, hc, hsigc⟩ := hsig
  have hmem : c ∈ header.commands.filter isCodeSignature :=
    List.mem_filter.mpr ⟨hc, hsigc⟩
  have hne : (header.commands.filter isCodeSignature).length ≠ 0 := by
    intro h0
    rw [List.length_eq_zero] at h0
    rw [h0] at hmem
    exact absurd hmem (List.not_mem_nil c)
  unfold fix_exe_for_code_signing
  rw [heq]
  simp only [if_neg hne]

/-- Witness for C4. -/
theorem fix_rejects_signed_slice_witness :
    exSigned.headers.getLast? = some hdrSigned ∧
    fix_exe_for_code_signing 100000 exSigned = Except.error FixError.alreadySigned :=
  ⟨rfl, fix_rejects_signed_slice 100000 exSigned hdrSigned rfl
    ⟨LoadCommand.codeSignature, by decide, rfl⟩⟩

/-- C5 counterexample: a last slice WITHOUT exactly one __LINKEDIT
segment (here: none at all) but WITH an LC_CODE_SIGNATURE command fails
with the already-signed error, not with the missing-segment or
missing-symtab error the claim promises, because the sign check runs
first in the source. -/
theorem signed_slice_shadows_missing_segment :
    exNoLinkedit.headers.getLast? = some hdrNoLinkedit ∧
    (hdrNoLinkedit.commands.filterMap getLinkeditSeg).length ≠ 1 ∧
    fix_exe_for_code_signing 100000 exNoLinkedit = Except.error FixError.alreadySigned ∧
    FixError.alreadySigned ≠ FixError.missingSegment ∧
    FixError.alreadySigned ≠ FixError.missingSymtab :=
  ⟨rfl, by decide, rfl, by decide, by decide⟩

/-- C5 as amended: on a last slice with NO code-signature command, if
the number of __LINKEDIT segment-64 commands is not exactly one, or the
number of symtab commands is not exactly one, the run fails with the
missing-segment or the missing-symtab error; the asserts sit before the
write call, so the file is unchanged. -/
theorem fix_rejects_bad_counts_unsigned (file_size : Int) (ex : MachO)
    (header : MachOHeader)
    (heq : ex.headers.getLast? = some header)
    (hsig : header.commands.filter isCodeSignature = [])
    (hbad : (header.commands.filterMap getLinkeditSeg).length ≠ 1 ∨
            (header.commands.filterMap getSymtab).length ≠ 1) :
    fix_exe_for_code_signing file_size ex = Except.error FixError.missingSegment ∨
    fix_exe_for_code_signing file_size ex = Except.error FixError.missingSymtab := by
  unfold fix_exe_for_code_signing
  rw [heq]
  rcases hsl : header.commands.filterMap getLinkeditSeg with _ | ⟨a, _ | ⟨b, t⟩⟩
  · left; simp [hsig, hsl]
  · right
    rcases hst : header.commands.filterMap getSymtab with _ | ⟨c, _ | ⟨d, u⟩⟩
    · simp [hsig, hsl, hst]
    · exfalso
      rcases hbad with h | h
      · rw [hsl] at h; exact h rfl
      · rw [hst] at h; exact h rfl
    · simp [hsig, hsl, hst]
  · left; simp [hsig, hsl]

/-- Witness for amended C5: two __LINKEDIT segments on an unsigned
slice are rejected. -/
theorem fix_rejects_bad_counts_unsigned_witness :
    fix_exe_for_code_signing 100000 exTwoLinkedit =
      Except.error FixError.missingSegment ∨
    fix_exe_for_code_signing 100000 exTwoLinkedit =
      Except.error FixError.missingSymtab :=
  fix_rejects_bad_counts_unsigned 100000 exTwoLinkedit hdrTwoLinkedit rfl
    (by decide) (Or.inl (by decide))

/-- C6 counterexample: a last slice whose unique __LINKEDIT segment and
unique symtab violate the contiguity equation, but which also carries
an LC_CODE_SIGNATURE command, fails with the already-signed error, not
with the layout-mismatch error the claim promises. -/
theorem signed_slice_shadows_layout_check :
    exMismatchSigned.headers.getLast? = some hdrMismatchSigned ∧
    hdrMismatchSigned.commands.filterMap getLinkeditSeg = [segEx] ∧
    hdrMismatchSigned.commands.filterMap getSymtab = [stBad] ∧
    segEx.fileoff + segEx.filesize ≠ stBad.stroff + stBad.strsize ∧
    fix_exe_for_code_signing 100100 exMismatchSigned =
      Except.error FixError.alreadySigned ∧
    FixError.alreadySigned ≠ FixError.layoutMismatch :=
  ⟨rfl, by decide, by decide, by decide, rfl, by decide⟩

/-- C6 as amended: on a last slice with no code-signature command,
exactly one __LINKEDIT segment and exactly one symtab, a violated
contiguity equation (fileoff + filesize different from stroff + strsize)
fails the run with the layout-mismatch error, before any write; when
the equation holds the run proceeds to the mutation and succeeds (the
fat well-formedness hypothesis reflects that MachO.load_fat creates one
header per fat_arch entry, so a parsed fat file has a last entry). -/
theorem fix_layout_check_unsigned (file_size : Int) (ex : MachO)
    (header : MachOHeader) (seg : SegmentCommand64) (st : SymtabCommand)
    (heq : ex.headers.getLast? = some header)
    (hsig : header.commands.filter isCodeSignature = [])
    (hseg : header.commands.filterMap getLinkeditSeg = [seg])
    (hst : header.commands.filterMap getSymtab = [st])
    (hwf : ex.fat = true → ex.fatArchs ≠ []) :
    (seg.fileoff + seg.filesize ≠ st.stroff + st.strsize →
      fix_exe_for_code_signing file_size ex = Except.error FixError.layoutMismatch) ∧
    (seg.fileoff + seg.filesize = st.stroff + st.strsize →
      ∃ out, fix_exe_for_code_signing file_size ex = Except.ok out) := by
  constructor
  · intro hne
    unfold fix_exe_for_code_signing
    rw [heq]
    simp [hsig, hseg, hst, hne]
  · intro hlay
    cases hfat : ex.fat with
    | false => exact ⟨_, fix_ok_thin file_size ex header seg st heq hfat hsig hseg hst hlay⟩
    | true =>
      have hnil := hwf hfat
      cases harch : ex.fatArchs.getLast? with
      | none => exact absurd (List.getLast?_eq_none_iff.mp harch) hnil
      | some arch =>
        exact ⟨_, fix_ok_fat file_size ex header seg st arch heq hfat harch hsig hseg hst hlay⟩

/-- Witness for amended C6: the unsigned mismatching slice is rejected
with the layout-mismatch error. -/
theorem fix_layout_check_unsigned_witness :
    fix_exe_for_code_signing 100100 exMismatch =
      Except.error FixError.layoutMismatch :=
  (fix_layout_check_unsigned 100100 exMismatch hdrMismatch segEx stBad rfl
    (by decide) (by decide) (by decide) (by simp [exMismatch])).1 (by decide)

/-- C7: on any successful run, the __LINKEDIT segment keeps its vmsize
(and fileoff and segname), the symtab keeps its stroff, every load
command other than the unique symtab and the unique __LINKEDIT segment
is unchanged, the non-last slices are unchanged, and the only further
change, for a fat file, is the size of the last fat_arch entry (its
offset and all other entries kept). -/
theorem fix_frame_effect (file_size : Int) (ex out : MachO)
    (hok : fix_exe_for_code_signing file_size ex = Except.ok out) :
    ∃ header seg st,
      ex.headers.getLast? = some header ∧
      header.commands.filterMap getLinkeditSeg = [seg] ∧
      header.commands.filterMap getSymtab = [st] ∧
      (∀ delta, delta = file_size - (header.offset + seg.fileoff + seg.filesize) →
        out.headers = ex.headers.dropLast ++
          [{ header with commands := header.commands.map (patchCommand delta) }] ∧
        (header.commands.map (patchCommand delta)).filterMap getLinkeditSeg =
          [patchSegment delta seg] ∧
        (patchSegment delta seg).vmsize = seg.vmsize ∧
        (patchSegment delta seg).fileoff = seg.fileoff ∧
        (patchSegment delta seg).segname = seg.segname ∧
        (header.commands.map (patchCommand delta)).filterMap getSymtab =
          [patchSymtab delta st] ∧
        (patchSymtab delta st).stroff = st.stroff ∧
        (∀ c ∈ header.commands, getLinkeditSeg c = none → getSymtab c = none →
          patchCommand delta c = c)) ∧
      out.fat = ex.fat ∧
      ((ex.fat = false ∧ out.fatArchs = ex.fatArchs) ∨
        (ex.fat = true ∧ ∃ arch, ex.fatArchs.getLast? = some arch ∧
          out.fatArchs = ex.fatArchs.dropLast ++
            [{ arch with size := file_size - arch.offset }] ∧
          ({ arch with size := file_size - arch.offset } : FatArch).offset =
            arch.offset)) := by
  obtain ⟨header, seg, st, heq, hsig, hseg, hst, hlay, hout, hfatEq, hcase⟩ :=
    fix_ok_elim hok
  refine ⟨header, seg, st, heq, hseg, hst, ?_, hfatEq, ?_⟩
  · intro delta hdelta
    subst hdelta
    refine ⟨hout, ?_, rfl, rfl, rfl, ?_, rfl, ?_⟩
    · rw [filterMap_linkedit_map_patch, hseg]; rfl
    · rw [filterMap_symtab_map_patch, hst]; rfl
    · intro c _ h1 h2; exact patchCommand_eq_self _ c h1 h2
  · rcases hcase with ⟨hf, hfa⟩ | ⟨hf, arch, harch, hfa⟩
    · exact Or.inl ⟨hf, hfa⟩
    · exact Or.inr ⟨hf, arch, harch, hfa, rfl⟩

/-- Witness for C7 on the concrete fat scenario. -/
theorem fix_frame_effect_witness :
    ∃ header seg st,
      exFat.headers.getLast? = some header ∧
      header.commands.filterMap getLinkeditSeg = [seg] ∧
      header.commands.filterMap getSymtab = [st] ∧
      (∀ delta, delta = 90005 - (header.offset + seg.fileoff + seg.filesize) →
        exFatOut.headers = exFat.headers.dropLast ++
          [{ header with commands := header.commands.map (patchCommand delta) }] ∧
        (header.commands.map (patchCommand delta)).filterMap getLinkeditSeg =
          [patchSegment delta seg] ∧
        (patchSegment delta seg).vmsize = seg.vmsize ∧
        (patchSegment delta seg).fileoff = seg.fileoff ∧
        (patchSegment delta seg).segname = seg.segname ∧
        (header.commands.map (patchCommand delta)).filterMap getSymtab =
          [patchSymtab delta st] ∧
        (patchSymtab delta st).stroff = st.stroff ∧
        (∀ c ∈ header.commands, getLinkeditSeg c = none → getSymtab c = none →
          patchCommand delta c = c)) ∧
      exFatOut.fat = exFat.fat ∧
      ((exFat.fat = false ∧ exFatOut.fatArchs = exFat.fatArchs) ∨
        (exFat.fat = true ∧ ∃ arch, exFat.fatArchs.getLast? = some arch ∧
          exFatOut.fatArchs = exFat.fatArchs.dropLast ++
            [{ arch with size := 90005 - arch.offset }] ∧
          ({ arch with size := 90005 - arch.offset } : FatArch).offset =
            arch.offset)) :=
  fix_frame_effect 90005 exFat exFatOut rfl

/-- C8: after a successful run, the actual file size equals the
recomputed declared size, so a second run recomputes delta = 0 and is a
complete no-op: it succeeds and returns the file unchanged (in
particular strsize, filesize and the last fat_arch size are all
unchanged). -/
theorem fix_idempotent_after_success (file_size : Int) (ex out : MachO)
    (hok : fix_exe_for_code_signing file_size ex = Except.ok out) :
    fix_exe_for_code_signing file_size out = Except.ok out := by
  obtain ⟨header, seg, st, heq, hsig, hseg, hst, hlay, hout, hfatEq, hcase⟩ :=
    fix_ok_elim hok
  set delta := file_size - (header.offset + seg.fileoff + seg.filesize) with hdelta
  set newHeader : MachOHeader :=
    { header with commands := header.commands.map (patchCommand delta) } with hnh
  have hlast2 : out.headers.getLast? = some newHeader := by
    rw [hout]; exact List.getLast?_concat _
  have hsig2 : newHeader.commands.filter isCodeSignature = [] := by
    show (header.commands.map (patchCommand delta)).filter isCodeSignature = []
    rw [filter_sig_map_patch, hsig]; rfl
  have hseg2 : newHeader.commands.filterMap getLinkeditSeg =
      [patchSegment delta seg] := by
    show (header.commands.map (patchCommand delta)).filterMap getLinkeditSeg = _
    rw [filterMap_linkedit_map_patch, hseg]; rfl
  have hst2 : newHeader.commands.filterMap getSymtab = [patchSymtab delta st] := by
    show (header.commands.map (patchCommand delta)).filterMap getSymtab = _
    rw [filterMap_symtab_map_patch, hst]; rfl
  have hlay2 : (patchSegment delta seg).fileoff + (patchSegment delta seg).filesize =
      (patchSymtab delta st).stroff + (patchSymtab delta st).strsize := by
    simp only [patchSegment, patchSymtab]
    omega
  have hoff : newHeader.offset = header.offset := rfl
  have hdelta2 : file_size - (newHeader.offset + (patchSegment delta seg).fileoff +
      (patchSegment delta seg).filesize) = 0 := by
    rw [hoff]
    simp only [patchSegment]
    omega
  have hdrop : out.headers.dropLast = ex.headers.dropLast := by
    rw [hout]; exact List.dropLast_concat
  cases hfatv : out.fat with
  | false =>
    rw [fix_ok_thin file_size out newHeader (patchSegment delta seg)
      (patchSymtab delta st) hlast2 hfatv hsig2 hseg2 hst2 hlay2]
    rw [hdelta2, map_patchCommand_zero, hdrop]
    have hh : ({ newHeader with commands := newHeader.commands } : MachOHeader) =
        newHeader := rfl
    rw [hh, ← hout]
  | true =>
    have hexfat : ex.fat = true := by rw [← hfatEq, hfatv]
    rcases hcase with ⟨hf, _⟩ | ⟨_, arch, harch, hfa⟩
    · rw [hexfat] at hf; exact absurd hf (by simp)
    · have harch2 : out.fatArchs.getLast? =
          some { arch with size := file_size - arch.offset } := by
        rw [hfa]; exact List.getLast?_concat _
      rw [fix_ok_fat file_size out newHeader (patchSegment delta seg)
        (patchSymtab delta st) { arch with size := file_size - arch.offset }
        hlast2 hfatv harch2 hsig2 hseg2 hst2 hlay2]
      rw [hdelta2, map_patchCommand_zero, hdrop]
      have hh : ({ newHeader with commands := newHeader.commands } : MachOHeader) =
          newHeader := rfl
      rw [hh, ← hout]
      have hfadrop : out.fatArchs.dropLast = ex.fatArchs.dropLast := by
        rw [hfa]; exact List.dropLast_concat
      rw [hfadrop]
      have hlastarch : ({ { arch with size := file_size - arch.offset } with
          size := file_size - ({ arch with size := file_size - arch.offset } :
            FatArch).offset } : FatArch) =
          { arch with size := file_size - arch.offset } := rfl
      rw [hlastarch, ← hfa]

/-- Witness for C8: re-running on the already-patched fat scenario
returns it unchanged. -/
theorem fix_idempotent_after_success_witness :
    fix_exe_for_code_signing 90005 exFatOut = Except.ok exFatOut :=
  fix_idempotent_after_success 90005 exFat exFatOut rfl

/-- C9: the contiguity invariant checked by the validator is
re-established by the mutation: adding delta to both filesize and
strsize (fileoff and stroff unmodified) preserves the equation
fileoff + filesize = stroff + strsize. -/
theorem patch_preserves_contiguity (delta : Int) (seg : SegmentCommand64)
    (st : SymtabCommand)
    (h : seg.fileoff + seg.filesize = st.stroff + st.strsize) :
    (patchSegment delta seg).fileoff + (patchSegment delta seg).filesize =
      (patchSymtab delta st).stroff + (patchSymtab delta st).strsize := by
  simp only [patchSegment, patchSymtab]
  omega

/-- Witness for C9. -/
theorem patch_preserves_contiguity_witness :
    segEx.fileoff + segEx.filesize = stEx.stroff + stEx.strsize ∧
    (patchSegment 20 segEx).fileoff + (patchSegment 20 segEx).filesize =
      (patchSymtab 20 stEx).stroff + (patchSymtab 20 stEx).strsize :=
  ⟨by decide, patch_preserves_contiguity 20 segEx stEx (by decide)⟩

/-- C10: when the brew (resp. port) command is not on PATH,
shutil.which returns None, os.path.dirname(None) raises TypeError, so
get_homebrew_prefix and get_macports_prefix raise rather than return a
path or None, and is_homebrew_env / is_macports_env propagate that
error instead of returning False, whatever the interpreter's base
path is. -/
theorem env_checks_raise_without_command ( base_prefix : String) :
    get_homebrew_prefix none = Except.error PyError.typeError ∧
    get_macports_prefix none = Except.error PyError.typeError ∧
    is_homebrew_env none base_prefix = Except.error PyError.typeError ∧
    is_macports_env none base_prefix = Except.error PyError.typeError :=
  ⟨rfl, rfl, rfl, rfl⟩
